import Mathlib

/-!
Verification development for the `Intervals` library (`interval.py`,
`intervalset.py`): a shallow embedding of the library's data model and
operations, and theorems settling the specification's claims against it.

Modelling conventions:

* The domain of "comparable values" is embedded as `Int`.  The Python
  library guards its arguments with `isinstance(_, SupportsRichComparison)`;
  in the embedding the domain type is comparable by construction, so that
  guard can never fire and is dropped.  All other runtime checks of
  `Interval.__init__` are translated verbatim.
* The sentinels `Smallest()` (written `-Inf`) and `Largest()` (`Inf`)
  together with domain values form the type `EVal`.  Python's `<`, `>`
  and `==` on `EVal`s are translated operator by operator, following
  CPython dispatch: `a < b` first tries `type(a).__lt__` and falls back
  to `type(b).__gt__` when the left operand returns `NotImplemented`
  (and symmetrically for `>`).  In particular `Smallest.__lt__` returns
  `True` unconditionally and `Largest.__gt__` returns `True`
  unconditionally, so `-Inf < -Inf` and `Inf > Inf` are both `True` in
  the source, and the embedding reproduces that.
* Fallible code returns `Except PyErr _`.  `Interval.overlaps` and
  `Interval.adjacent_to` recurse by swapping their arguments; when each
  argument `comes_before` the other this recursion never terminates
  (a `RecursionError` in CPython), which the embedding represents with
  `Option.none` / the error `PyErr.diverge`.
* `IntervalSet` states are the stored `intervals` sequences
  (`List Interval`).  For the frame claims about mutation a second,
  store-passing rendering of the same operator code is given at the end
  of the definitions: objects become references into a `Store`, a cell
  is allocated wherever the source constructs an `IntervalSet`, and a
  cell is written wherever the source assigns `<object>.intervals`.
-/

namespace Intervals

/-- An extended value: a domain value, or one of the two sentinel
infinities `Smallest` (`-Inf`) / `Largest` (`Inf`) from `interval.py`. -/
inductive EVal where
  | neginf : EVal
  | val : Int → EVal
  | posinf : EVal
deriving DecidableEq, Repr

/-- Python `a < b` on extended values.  `Smallest.__lt__` is `True`
unconditionally; `Largest.__lt__` is `False` unconditionally; for a
domain value on the left, `int.__lt__` returns `NotImplemented` against
a sentinel and CPython falls back to the sentinel's reflected `__gt__`
(`Smallest.__gt__ = False`, `Largest.__gt__ = True`). -/
def elt : EVal → EVal → Bool
  | .neginf, _ => true
  | .posinf, _ => false
  | .val _, .neginf => false
  | .val v, .val w => v < w
  | .val _, .posinf => true

/-- Python `a > b` on extended values.  `Smallest.__gt__` is `False`
unconditionally; `Largest.__gt__` is `True` unconditionally; for a
domain value on the left the reflected sentinel `__lt__` is used
(`Smallest.__lt__ = True`, `Largest.__lt__ = False`). -/
def egt : EVal → EVal → Bool
  | .neginf, _ => false
  | .posinf, _ => true
  | .val _, .neginf => true
  | .val v, .val w => w < v
  | .val _, .posinf => false

/-- Python `a == b` on extended values: `Smallest.__eq__`/`Largest.__eq__`
are `isinstance` tests, and a domain value never equals a sentinel. -/
def eeq : EVal → EVal → Bool
  | .neginf, .neginf => true
  | .posinf, .posinf => true
  | .val v, .val w => v == w
  | _, _ => false

/-- Python exceptions raised by the library, plus `diverge` for the
unbounded mutual recursion of `overlaps`/`adjacent_to` (a
`RecursionError` in CPython, distinct from every ordinary exception).
`KeyError(str(obj))` carries only the rendering of its argument, which
no claim depends on, so it is modelled without a payload. -/
inductive PyErr where
  | valueError : String → PyErr
  | arithmeticError : String → PyErr
  | keyError : PyErr
  | diverge : PyErr
deriving DecidableEq, Repr

/-- Whether an exception is the `KeyError` raised by
`IntervalSet.remove`. -/
def PyErr.isKey : PyErr → Bool
  | .keyError => true
  | _ => false

/-- The `Interval` value object: the four attributes stored by
`Interval.__init__`. -/
structure Interval where
  lower_bound : EVal
  lower_closed : Bool
  upper_bound : EVal
  upper_closed : Bool
deriving DecidableEq, Repr

namespace Interval

/-- `Interval.__init__(lower_bound, upper_bound, closed, lower_closed,
upper_closed)` translated verbatim (the `isinstance` comparability guard
holds by construction in the embedding):

* `if upper_bound < lower_bound: raise ValueError(...)`;
* `lower_closed = (closed or lower_closed)`,
  `upper_closed = (closed or upper_closed)`;
* `if (lower_bound == -Inf and lower_closed) or (upper_bound == Inf and
  upper_closed): raise ValueError(...)`;
* otherwise store the four fields.

The Python defaults are `lower_bound=-Inf, upper_bound=Inf, closed=True,
lower_closed=True, upper_closed=True`; call sites below spell out the
default for every argument the source call leaves implicit. -/
def init (lower_bound upper_bound : EVal) (closed lower_closed upper_closed : Bool) :
    Except PyErr Interval :=
  if elt upper_bound lower_bound then
    .error (.valueError "Upper bound cannot be greater than lower bound.")
  else
    let lc := closed || lower_closed
    let uc := closed || upper_closed
    if (eeq lower_bound .neginf && lc) || (eeq upper_bound .posinf && uc) then
      .error (.valueError "Unbound ends cannot be included in an interval.")
    else
      .ok ⟨lower_bound, lc, upper_bound, uc⟩

/-- `Interval.none()` = `cls(0, 0, closed=False)`
(`lower_closed`/`upper_closed` keep their default `True`). -/
def none : Except PyErr Interval := init (.val 0) (.val 0) false true true

/-- `Interval.all()` = `cls()` (every argument at its default). -/
def all : Except PyErr Interval := init .neginf .posinf true true true

/-- `Interval.between(a, b, closed)` = `cls(a, b, closed=closed)`. -/
def between (a b : EVal) (closed : Bool) : Except PyErr Interval :=
  init a b closed true true

/-- `Interval.equal_to(a)` = `cls(a, a)`. -/
def equal_to (a : EVal) : Except PyErr Interval := init a a true true true

/-- `Interval.less_than(a)` = `cls(upper_bound=a, upper_closed=False)`
(`lower_bound=-Inf`, `closed=True`, `lower_closed=True` by default). -/
def less_than (a : EVal) : Except PyErr Interval :=
  init .neginf a true true false

/-- `Interval.less_than_or_equal_to(a)` =
`cls(upper_bound=a, upper_closed=True)`. -/
def less_than_or_equal_to (a : EVal) : Except PyErr Interval :=
  init .neginf a true true true

/-- `Interval.greater_than(a)` = `cls(lower_bound=a, lower_closed=False)`
(`upper_bound=Inf`, `closed=True`, `upper_closed=True` by default). -/
def greater_than (a : EVal) : Except PyErr Interval :=
  init a .posinf true false true

/-- `Interval.greater_than_or_equal_to(a)` =
`cls(lower_bound=a, lower_closed=True)`. -/
def greater_than_or_equal_to (a : EVal) : Except PyErr Interval :=
  init a .posinf true true true

/-- `Interval.__nonzero__`:
`self.lower_bound != self.upper_bound or (self.upper_closed and
self.lower_closed)`. -/
def nonzero (i : Interval) : Bool :=
  !(eeq i.lower_bound i.upper_bound) || (i.upper_closed && i.lower_closed)

/-- `Interval.__eq__`: all four fields compare equal (bounds with the
Python `==` of `eeq`). -/
def ieq (a b : Interval) : Bool :=
  eeq a.upper_bound b.upper_bound && eeq a.lower_bound b.lower_bound &&
    (a.upper_closed == b.upper_closed) && (a.lower_closed == b.lower_closed)

/-- `Interval.comes_before`, translated branch by branch. -/
def comes_before (a b : Interval) : Bool :=
  if ieq a b then false
  else if elt a.lower_bound b.lower_bound then true
  else if egt a.lower_bound b.lower_bound then false
  else if a.lower_closed == b.lower_closed then
    if elt a.upper_bound b.upper_bound then true
    else if egt a.upper_bound b.upper_bound || (a.upper_closed == b.upper_closed)
        || a.upper_closed then false
    else true
  else if a.lower_closed then true
  else false

/-- The non-recursive tail of `Interval.overlaps`, evaluated with
`self := a`, `other := b`:
`other.lower_bound < self.upper_bound`, or they are equal and
`other.lower_closed and self.upper_closed`. -/
def overlapsDirect (a b : Interval) : Bool :=
  if elt b.lower_bound a.upper_bound then true
  else if eeq b.lower_bound a.upper_bound then b.lower_closed && a.upper_closed
  else false

/-- `Interval.overlaps` with its argument-swapping recursion unrolled.
The source is

```
if self == other: True
elif other.comes_before(self): return other.overlaps(self)
elif other.lower_bound < self.upper_bound: True
elif other.lower_bound == self.upper_bound:
    other.lower_closed and self.upper_closed
else: False
```

The recursive call swaps the arguments once; the swapped call re-enters
the same code, so when `comes_before` holds in *both* directions (which
the source's `comes_before` permits, e.g. for two distinct intervals
whose lower bounds are both `-Inf`, since `-Inf < -Inf` is `True`)
the recursion never terminates.  That case is `Option.none`; otherwise at
most one swap happens and the result is the direct evaluation.
`overlapsFuel` below is the literal fuelled recursion, and
`overlapsFuel_eq` proves this unrolling agrees with it. -/
def overlaps (a b : Interval) : Option Bool :=
  if ieq a b then some true
  else if comes_before b a then
    if ieq b a then some true
    else if comes_before a b then Option.none
    else some (overlapsDirect b a)
  else some (overlapsDirect a b)

/-- `Interval.overlaps` as a literal fuelled recursion (`Option.none`
when the fuel runs out, i.e. the call diverges). -/
def overlapsFuel : Nat → Interval → Interval → Option Bool
  | 0, _, _ => Option.none
  | n + 1, a, b =>
    if ieq a b then some true
    else if comes_before b a then overlapsFuel n b a
    else some (overlapsDirect a b)

/-- The non-recursive tail of `Interval.adjacent_to`, evaluated with
`self := a`, `other := b`: `self.upper_bound == other.lower_bound` and
the two closures at that boundary differ. -/
def adjacentDirect (a b : Interval) : Bool :=
  if eeq a.upper_bound b.lower_bound then !(a.upper_closed == b.lower_closed)
  else false

/-- `Interval.adjacent_to` with its argument-swapping recursion
unrolled.  The source is

```
if self.comes_before(other): <adjacentDirect self other>
elif self == other: False
else: return other.adjacent_to(self)
```

When neither interval `comes_before` the other and they are unequal
(possible for the source's `comes_before`, e.g. two distinct intervals
with `upper_bound = Inf`, since `Inf > Inf` is `True`), the swapped call
swaps back forever: `Option.none`. -/
def adjacent_to (a b : Interval) : Option Bool :=
  if comes_before a b then some (adjacentDirect a b)
  else if ieq a b then some false
  else
    if comes_before b a then some (adjacentDirect b a)
    else if ieq b a then some false
    else Option.none

/-- `Interval.join` translated verbatim.  `self.overlaps(other) or
self.adjacent_to(other)` (short-circuit, either may diverge); on success
the outermost bound on each side, with Python's `max` on the closure
booleans at a tie (which is disjunction); the result goes through
`Interval(lbound, ubound, upper_closed=uinc, lower_closed=linc)` — note
that this constructor call leaves `closed` at its default `True`. -/
def join (a b : Interval) : Except PyErr Interval :=
  match overlaps a b with
  | Option.none => .error .diverge
  | some ov =>
    match (if ov then some true else adjacent_to a b) with
    | Option.none => .error .diverge
    | some cond =>
      if cond then
        let p :=
          if elt a.lower_bound b.lower_bound then (a.lower_bound, a.lower_closed)
          else if eeq a.lower_bound b.lower_bound then
            (a.lower_bound, a.lower_closed || b.lower_closed)
          else (b.lower_bound, b.lower_closed)
        let q :=
          if egt a.upper_bound b.upper_bound then (a.upper_bound, a.upper_closed)
          else if eeq a.upper_bound b.upper_bound then
            (a.upper_bound, a.upper_closed || b.upper_closed)
          else (b.upper_bound, b.upper_closed)
        init p.1 q.1 true p.2 q.2
      else .error (.arithmeticError "The Intervals are disjoint.")

/-- `Interval.__contains__` for an `Interval` argument `obj` tested
against `self`: inside-or-equal on each side, a tied bound requiring
`obj`'s closure `<=` `self`'s closure (Python `bool` order: an open
nested bound fits under anything, a closed nested bound only under a
closed outer bound). -/
def contains (self obj : Interval) : Bool :=
  (if elt obj.lower_bound self.lower_bound then false
   else if eeq obj.lower_bound self.lower_bound then
     (!obj.lower_closed || self.lower_closed)
   else true)
  &&
  (if egt obj.upper_bound self.upper_bound then false
   else if eeq obj.upper_bound self.upper_bound then
     (!obj.upper_closed || self.upper_closed)
   else true)

end Interval

/-- The checks `Interval.__init__` performs on the stored fields: the
bounds are not reversed for Python `<`, and no `-Inf` lower /`Inf` upper
end is closed.  `init_valid` shows every constructed interval is valid. -/
def Valid (i : Interval) : Prop :=
  elt i.upper_bound i.lower_bound = false ∧
  (eeq i.lower_bound .neginf && i.lower_closed) = false ∧
  (eeq i.upper_bound .posinf && i.upper_closed) = false

instance (i : Interval) : Decidable (Valid i) := by
  unfold Valid; infer_instance

/-- Insertable items of a `BaseIntervalSet`: an `Interval` object or a
discrete domain value. -/
inductive Item where
  | iv : Interval → Item
  | scalar : Int → Item
deriving DecidableEq, Repr

namespace BaseIntervalSet

/-- Stable insertion of `x` into a list sorted ascending by
`Interval.comes_before` (Python `list.sort` compares with
`Interval.__lt__`, which is `comes_before`): `x` goes in front of the
first element it `comes_before` and after any element it ties with,
which is the position CPython's stable sort assigns.  The claims below
about concrete insertion traces evaluate this model on lists where
`comes_before` is a strict weak order, where every stable sort agrees. -/
def insertSorted (x : Interval) : List Interval → List Interval
  | [] => [x]
  | y :: ys =>
    if Interval.comes_before x y then x :: y :: ys else y :: insertSorted x ys

/-- `self.intervals.sort()` in `BaseIntervalSet._add`, as a stable
left-to-right insertion sort. -/
def sortIntervals (l : List Interval) : List Interval :=
  l.foldl (fun acc x => insertSorted x acc) []

/-- The `for i in self.intervals` loop of `BaseIntervalSet._add`:
each stored interval that `overlaps` or is `adjacent_to` the incoming
`r` is folded into it by `r = r.join(i)`; the others are kept (in
order).  Returns the kept intervals and the final accumulator. -/
def addScan (r : Interval) : List Interval → Except PyErr (List Interval × Interval)
  | [] => .ok ([], r)
  | i :: rest =>
    match Interval.overlaps i r with
    | Option.none => .error .diverge
    | some ov =>
      match (if ov then some true else Interval.adjacent_to i r) with
      | Option.none => .error .diverge
      | some cond =>
        if cond then
          match Interval.join r i with
          | .error e => .error e
          | .ok r' => addScan r' rest
        else
          match addScan r rest with
          | .error e => .error e
          | .ok (kept, r') => .ok (i :: kept, r')

/-- `BaseIntervalSet._add(obj)`: wrap a discrete value as
`Interval.equal_to`; drop the incoming interval if it is empty
(`if r:`); otherwise run the merge scan, append the accumulated
interval and re-sort. -/
def _add (st : List Interval) (obj : Item) : Except PyErr (List Interval) :=
  match (match obj with
         | .iv i => Except.ok i
         | .scalar v => Interval.equal_to (.val v)) with
  | .error e => .error e
  | .ok r =>
    if Interval.nonzero r then
      match addScan r st with
      | .error e => .error e
      | .ok (kept, r') => .ok (sortIntervals (kept ++ [r']))
    else .ok st

/-- `BaseIntervalSet.__init__(items)`: start empty and `_add` each item
in turn. -/
def ofItems (items : List Item) : Except PyErr (List Interval) :=
  items.foldlM _add []

/-- Re-inserting a list of stored `Interval`s into a set state: the
`IntervalSet(self)` / `self.__class__(result)` rebuild pattern and the
`union.add(r)` loop all have this shape. -/
def addIvals (st : List Interval) (l : List Interval) : Except PyErr (List Interval) :=
  l.foldlM (fun s i => _add s (.iv i)) st

/-- `BaseIntervalSet.__contains__(obj)`: some stored interval contains
`obj` (`Interval.__contains__` wraps a discrete value as the closed
point interval, see `equal_to_val`). -/
def contains (st : List Interval) (obj : Item) : Bool :=
  (match obj with
   | .iv i => i
   | .scalar v => ⟨.val v, true, .val v, true⟩) |>
    fun r => st.any fun s => Interval.contains s r

/-- `BaseIntervalSet.__le__` (and `issubset` on a set operand): every
stored interval of `a` is `in` `b`. -/
def le (a b : List Interval) : Bool := a.all fun i => contains b (.iv i)

/-- `BaseIntervalSet.__eq__`: mutual `issubset`. -/
def eq (a b : List Interval) : Bool := le a b && le b a

/-- `BaseIntervalSet.__or__`: `union = IntervalSet(self)` (a rebuild of
self's stored intervals), then `union.add(r)` for every `r` of `other`,
then `self.__class__(union)` (another rebuild). -/
def orOp (a b : List Interval) : Except PyErr (List Interval) := do
  let u ← addIvals [] a
  let u ← addIvals u b
  addIvals [] u

/-- The inner loop of `BaseIntervalSet.__sub__` for one interval `j` of
the subtrahend: each interval `i` of the working set is dropped (`i` in
`j`), split into up to two remainder pieces (`j` in `i`; both pieces
are always attempted since `j.lower_bound != None` and
`j.upper_bound != None` always hold — sentinels and domain values never
equal `None`), trimmed on one side, or passed through into the fresh
`temp` set.  Every remainder piece goes through
`Interval(..., lower_closed=..., upper_closed=...)` with `closed` left
at its default `True`, then `temp.add`. -/
def subScan (j : Interval) (temp : List Interval) :
    List Interval → Except PyErr (List Interval)
  | [] => .ok temp
  | i :: rest =>
    match Interval.overlaps i j with
    | Option.none => .error .diverge
    | some ov =>
      if ov then
        if Interval.contains j i then subScan j temp rest
        else if Interval.contains i j then
          match Interval.init i.lower_bound j.lower_bound true
              i.lower_closed (!j.lower_closed) with
          | .error e => .error e
          | .ok p1 =>
            match _add temp (.iv p1) with
            | .error e => .error e
            | .ok t1 =>
              match Interval.init j.upper_bound i.upper_bound true
                  (!j.upper_closed) i.upper_closed with
              | .error e => .error e
              | .ok p2 =>
                match _add t1 (.iv p2) with
                | .error e => .error e
                | .ok t2 => subScan j t2 rest
        else if Interval.comes_before j i then
          match Interval.init j.upper_bound i.upper_bound true
              (!j.upper_closed) i.upper_closed with
          | .error e => .error e
          | .ok p =>
            match _add temp (.iv p) with
            | .error e => .error e
            | .ok t1 => subScan j t1 rest
        else
          match Interval.init i.lower_bound j.lower_bound true
              i.lower_closed (!j.lower_closed) with
          | .error e => .error e
          | .ok p =>
            match _add temp (.iv p) with
            | .error e => .error e
            | .ok t1 => subScan j t1 rest
      else
        match _add temp (.iv i) with
        | .error e => .error e
        | .ok t1 => subScan j t1 rest

/-- `BaseIntervalSet.__sub__`: `result = IntervalSet(self)` (a rebuild);
for each `j` of `other` the working set is rebuilt into a fresh `temp`
by `subScan`; finally `self.__class__(result)` (another rebuild). -/
def subOp (a b : List Interval) : Except PyErr (List Interval) := do
  let res ← addIvals [] a
  let res ← b.foldlM (fun res j => subScan j [] res) res
  addIvals [] res

/-- One `(i, j)` pair of `BaseIntervalSet.__and__`'s nested loops:
emit `i`, `j`, or the overlap region built by
`Interval(..., lower_closed=..., upper_closed=...)` (with `closed` left
`True`) into the result via `result.add`. -/
def andPair (i j : Interval) (res : List Interval) : Except PyErr (List Interval) :=
  match Interval.overlaps i j with
  | Option.none => .error .diverge
  | some ov =>
    if ov then
      if Interval.contains j i then _add res (.iv i)
      else if Interval.contains i j then _add res (.iv j)
      else if Interval.comes_before j i then
        match Interval.init i.lower_bound j.upper_bound true
            i.lower_closed j.upper_closed with
        | .error e => .error e
        | .ok p => _add res (.iv p)
      else
        match Interval.init j.lower_bound i.upper_bound true
            j.lower_closed i.upper_closed with
        | .error e => .error e
        | .ok p => _add res (.iv p)
    else .ok res

/-- `BaseIntervalSet.__and__`: `for j in other.intervals: for i in
self.intervals: ...` collecting into a fresh result, then
`self.__class__(result)`. -/
def andOp (a b : List Interval) : Except PyErr (List Interval) := do
  let res ← b.foldlM (fun res j => a.foldlM (fun res2 i => andPair i j res2) res) []
  addIvals [] res

/-- `BaseIntervalSet.__xor__`: `(self | other) - (self & other)`. -/
def xorOp (a b : List Interval) : Except PyErr (List Interval) := do
  let u ← orOp a b
  let n ← andOp a b
  subOp u n

/-- `IntervalSet.discard(obj)`: compute `self - IntervalSet([obj])`;
the caller replaces the stored sequence with the result. -/
def discard (st : List Interval) (obj : Item) : Except PyErr (List Interval) := do
  let other ← ofItems [obj]
  subOp st other

/-- `IntervalSet.remove(obj)`: `if obj in self: self.discard(obj)
else: raise KeyError(str(obj))`.  The result pairs the call's outcome
with the stored sequence after the call: it is replaced only by
`discard`'s final assignment, so any exception leaves it unchanged. -/
def remove (st : List Interval) (obj : Item) : Except PyErr Unit × List Interval :=
  if contains st obj then
    match discard st obj with
    | .error e => (.error e, st)
    | .ok st' => (.ok (), st')
  else (.error .keyError, st)

end BaseIntervalSet

/-! ### Store-passing rendering of the set operators

Used by the frame claim: one cell per `IntervalSet` object, a fresh
cell allocated wherever the source constructs a set, a write wherever
the source assigns an object's `intervals` attribute. -/

/-- The object store: cell `r` holds the `intervals` sequence of the
`IntervalSet` object with reference `r`. -/
abbrev Store := List (List Interval)

/-- Allocate a cell for a newly constructed object. -/
def salloc (σ : Store) (v : List Interval) : Store × Nat := (σ ++ [v], σ.length)

/-- Read an object's `intervals` attribute. -/
def sread (σ : Store) (r : Nat) : List Interval := σ.getD r []

/-- Assign an object's `intervals` attribute. -/
def swrite (σ : Store) (r : Nat) (v : List Interval) : Store := σ.set r v

namespace BaseIntervalSet

/-- `<object r>.add(obj)` (and the `_add` calls of `__init__`): read the
cell, run the merge, write the new sequence back into the same cell. -/
def addRef (σ : Store) (r : Nat) (obj : Item) : Except PyErr Store :=
  match _add (sread σ r) obj with
  | .error e => .error e
  | .ok st => .ok (swrite σ r st)

/-- A loop of `add` calls into the object at `r` (the `__init__` loop
and the `union.add(r)` loop of `__or__`). -/
def addAllRef (σ : Store) (r : Nat) : List Item → Except PyErr Store
  | [] => .ok σ
  | it :: rest =>
    match addRef σ r it with
    | .error e => .error e
    | .ok σ' => addAllRef σ' r rest

/-- `IntervalSet(items)` as a heap operation: allocate the new object's
cell (empty sequence), then `_add` each item into it. -/
def newSet (σ : Store) (items : List Item) : Except PyErr (Store × Nat) :=
  match addAllRef (salloc σ []).1 (salloc σ []).2 items with
  | .error e => .error e
  | .ok σ' => .ok (σ', (salloc σ []).2)

/-- `BaseIntervalSet.__or__` on object references:
`union = IntervalSet(self)`; `for r in other.intervals: union.add(r)`;
`return self.__class__(union)`. -/
def orRef (σ : Store) (a b : Nat) : Except PyErr (Store × Nat) :=
  match newSet σ ((sread σ a).map .iv) with
  | .error e => .error e
  | .ok (σ1, u) =>
    match addAllRef σ1 u ((sread σ1 b).map .iv) with
    | .error e => .error e
    | .ok σ2 => newSet σ2 ((sread σ2 u).map .iv)

/-- One `(i, j)` pair of `__and__` on references: the pair's
`result.add(...)` call against the cell at `res` (the overlap-region
constructor may raise first). -/
def andPairRef (σ : Store) (res : Nat) (i j : Interval) : Except PyErr Store :=
  match Interval.overlaps i j with
  | Option.none => .error .diverge
  | some ov =>
    if ov then
      if Interval.contains j i then addRef σ res (.iv i)
      else if Interval.contains i j then addRef σ res (.iv j)
      else if Interval.comes_before j i then
        match Interval.init i.lower_bound j.upper_bound true
            i.lower_closed j.upper_closed with
        | .error e => .error e
        | .ok p => addRef σ res (.iv p)
      else
        match Interval.init j.lower_bound i.upper_bound true
            j.lower_closed i.upper_closed with
        | .error e => .error e
        | .ok p => addRef σ res (.iv p)
    else .ok σ

/-- The inner `for i in self.intervals` loop of `__and__` on
references. -/
def andInnerRef (σ : Store) (res : Nat) (j : Interval) :
    List Interval → Except PyErr Store
  | [] => .ok σ
  | i :: rest =>
    match andPairRef σ res i j with
    | .error e => .error e
    | .ok σ' => andInnerRef σ' res j rest

/-- The outer `for j in other.intervals` loop of `__and__` on
references (`selfl` is the operand's sequence, which the loop only
reads). -/
def andOuterRef (σ : Store) (res : Nat) (selfl : List Interval) :
    List Interval → Except PyErr Store
  | [] => .ok σ
  | j :: rest =>
    match andInnerRef σ res j selfl with
    | .error e => .error e
    | .ok σ' => andOuterRef σ' res selfl rest

/-- `BaseIntervalSet.__and__` on object references:
`result = IntervalSet()`; the nested loops of `andPairRef`; then
`result = self.__class__(result)`. -/
def andRef (σ : Store) (a b : Nat) : Except PyErr (Store × Nat) :=
  match andOuterRef (salloc σ []).1 (salloc σ []).2 (sread σ a) (sread σ b) with
  | .error e => .error e
  | .ok σ' => newSet σ' ((sread σ' (salloc σ []).2).map .iv)

/-- The inner `for i in result.intervals` loop of `__sub__` on
references, writing each remainder piece into the fresh `temp` cell
(mirrors `subScan` statement by statement). -/
def subScanRef (σ : Store) (tempr : Nat) (j : Interval) :
    List Interval → Except PyErr Store
  | [] => .ok σ
  | i :: rest =>
    match Interval.overlaps i j with
    | Option.none => .error .diverge
    | some ov =>
      if ov then
        if Interval.contains j i then subScanRef σ tempr j rest
        else if Interval.contains i j then
          match Interval.init i.lower_bound j.lower_bound true
              i.lower_closed (!j.lower_closed) with
          | .error e => .error e
          | .ok p1 =>
            match addRef σ tempr (.iv p1) with
            | .error e => .error e
            | .ok σ1 =>
              match Interval.init j.upper_bound i.upper_bound true
                  (!j.upper_closed) i.upper_closed with
              | .error e => .error e
              | .ok p2 =>
                match addRef σ1 tempr (.iv p2) with
                | .error e => .error e
                | .ok σ2 => subScanRef σ2 tempr j rest
        else if Interval.comes_before j i then
          match Interval.init j.upper_bound i.upper_bound true
              (!j.upper_closed) i.upper_closed with
          | .error e => .error e
          | .ok p =>
            match addRef σ tempr (.iv p) with
            | .error e => .error e
            | .ok σ1 => subScanRef σ1 tempr j rest
        else
          match Interval.init i.lower_bound j.lower_bound true
              i.lower_closed (!j.lower_closed) with
          | .error e => .error e
          | .ok p =>
            match addRef σ tempr (.iv p) with
            | .error e => .error e
            | .ok σ1 => subScanRef σ1 tempr j rest
      else
        match addRef σ tempr (.iv i) with
        | .error e => .error e
        | .ok σ1 => subScanRef σ1 tempr j rest

/-- The `for j in other.intervals` loop of `__sub__` on references:
allocate a fresh `temp = IntervalSet()`, rebuild into it from the
current `result` cell, then rebind `result = temp`. -/
def subLoopRef (σ : Store) (resr : Nat) :
    List Interval → Except PyErr (Store × Nat)
  | [] => .ok (σ, resr)
  | j :: rest =>
    match subScanRef (salloc σ []).1 (salloc σ []).2 j (sread σ resr) with
    | .error e => .error e
    | .ok σ1 => subLoopRef σ1 (salloc σ []).2 rest

/-- `BaseIntervalSet.__sub__` on object references:
`result = IntervalSet(self)`; the `subLoopRef` loop; then
`self.__class__(result)`. -/
def subRef (σ : Store) (a b : Nat) : Except PyErr (Store × Nat) :=
  match newSet σ ((sread σ a).map .iv) with
  | .error e => .error e
  | .ok (σ1, resr) =>
    match subLoopRef σ1 resr (sread σ1 b) with
    | .error e => .error e
    | .ok (σ2, resr2) => newSet σ2 ((sread σ2 resr2).map .iv)

/-- `BaseIntervalSet.__xor__` on object references:
`(self | other) - (self & other)`, each operand a fresh result
object. -/
def xorRef (σ : Store) (a b : Nat) : Except PyErr (Store × Nat) :=
  match orRef σ a b with
  | .error e => .error e
  | .ok (σ1, u) =>
    match andRef σ1 a b with
    | .error e => .error e
    | .ok (σ2, n) => subRef σ2 u n

end BaseIntervalSet

/-! ### Theorems -/

/-- Python `==` on extended values is symmetric. -/
theorem eeq_symm (a b : EVal) : eeq a b = eeq b a := by
  cases a <;> cases b <;> simp [eeq, eq_comm]

/-- Python `==` on extended values is reflexive. -/
theorem eeq_refl (a : EVal) : eeq a a = true := by
  cases a <;> simp [eeq]

/-- `Interval.__eq__` is symmetric. -/
theorem ieq_symm (a b : Interval) : Interval.ieq a b = Interval.ieq b a := by
  unfold Interval.ieq
  rw [eeq_symm a.upper_bound, eeq_symm a.lower_bound]
  cases a.upper_closed <;> cases b.upper_closed <;>
    cases a.lower_closed <;> cases b.lower_closed <;> simp

/-- `Interval.__eq__` is reflexive, so `comes_before` is irreflexive. -/
theorem comes_before_self (c : Interval) : Interval.comes_before c c = false := by
  unfold Interval.comes_before Interval.ieq
  simp [eeq_refl]

/-- If `comes_before` holds in both directions, the fuelled `overlaps`
recursion never produces an answer, whatever the fuel. -/
theorem overlapsFuel_mutual_none (n : Nat) :
    ∀ a b : Interval, Interval.comes_before a b = true →
      Interval.comes_before b a = true → Interval.ieq a b = false →
      Interval.overlapsFuel n a b = Option.none := by
  induction n with
  | zero => intro a b _ _ _; rfl
  | succ n ih =>
    intro a b hab hba hne
    unfold Interval.overlapsFuel
    rw [hne, hba]
    simp only [Bool.false_eq_true, if_false, if_true]
    exact ih b a hba hab (by rw [ieq_symm]; exact hne)

/-- The unrolled `Interval.overlaps` agrees with the fuelled recursion
whenever at least two units of fuel are available. -/
theorem overlapsFuel_eq (n : Nat) (a b : Interval) :
    Interval.overlapsFuel (n + 2) a b = Interval.overlaps a b := by
  unfold Interval.overlaps Interval.overlapsFuel
  by_cases h1 : Interval.ieq a b = true
  · simp [h1]
  · rw [Bool.not_eq_true] at h1
    rw [h1]
    by_cases h2 : Interval.comes_before b a = true
    · rw [h2]
      simp only [Bool.false_eq_true, if_false, if_true]
      unfold Interval.overlapsFuel
      have h1' : Interval.ieq b a = false := by rw [ieq_symm]; exact h1
      rw [h1']
      by_cases h3 : Interval.comes_before a b = true
      · rw [h3]
        simp only [Bool.false_eq_true, if_false, if_true]
        exact overlapsFuel_mutual_none n a b h3 h2 h1
      · rw [Bool.not_eq_true] at h3
        rw [h3]
        simp
    · rw [Bool.not_eq_true] at h2
      rw [h2]
      simp

/-- Every interval `Interval.__init__` returns satisfies `Valid`. -/
theorem init_valid (l u : EVal) (c lc uc : Bool) (i : Interval)
    (h : Interval.init l u c lc uc = .ok i) : Valid i := by
  unfold Interval.init at h
  split at h
  · exact absurd h (by simp)
  · dsimp only at h
    split at h
    · exact absurd h (by simp)
    · cases h
      refine ⟨by simp_all, ?_, ?_⟩ <;> simp_all

/-- `Interval.equal_to` on a domain value always succeeds and stores the
closed point interval — the wrapping `BaseIntervalSet` applies to
discrete values. -/
theorem equal_to_val (v : Int) :
    Interval.equal_to (.val v) = .ok ⟨.val v, true, .val v, true⟩ := by
  simp [Interval.equal_to, Interval.init, elt, eeq]

/-- C1: the five unbounded convenience constructors of the claim all
*fail*.  With `closed` left at its default `True`, `Interval.__init__`
computes `lower_closed = (closed or lower_closed) = True` and
`upper_closed = True`, so the `-Inf`/`Inf` default bound is marked
closed and the constructor raises
`ValueError("Unbound ends cannot be included in an interval.")` for
`all()`, `less_than(v)`, `less_than_or_equal_to(v)`, `greater_than(v)`
and `greater_than_or_equal_to(v)` alike — contradicting the claim (and
the constructors' own doctests, e.g. `print Interval.all()` → `(...)`). -/
theorem c1_unbounded_constructors_fail :
    Interval.all
        = .error (.valueError "Unbound ends cannot be included in an interval.") ∧
    (∀ v : Int, Interval.less_than (.val v)
        = .error (.valueError "Unbound ends cannot be included in an interval.")) ∧
    (∀ v : Int, Interval.less_than_or_equal_to (.val v)
        = .error (.valueError "Unbound ends cannot be included in an interval.")) ∧
    (∀ v : Int, Interval.greater_than (.val v)
        = .error (.valueError "Unbound ends cannot be included in an interval.")) ∧
    (∀ v : Int, Interval.greater_than_or_equal_to (.val v)
        = .error (.valueError "Unbound ends cannot be included in an interval.")) :=
  ⟨rfl, fun _ => rfl, fun _ => rfl, fun _ => rfl, fun _ => rfl⟩

/-- C3: `Interval.none()` = `cls(0, 0, closed=False)` does *not* build
the canonical empty interval.  Since `lower_closed`/`upper_closed` keep
their default `True` and `__init__` computes `closed or lower_closed`,
the result is the closed point interval `[0..0]`, which is *truthy*
(non-empty, it denotes `{0}`) — contradicting the claim and the
method's own doctest `print Interval.none()` → `<Empty>`. -/
theorem c3_none_is_closed_point :
    Interval.none = .ok ⟨.val 0, true, .val 0, true⟩ ∧
    Interval.nonzero ⟨.val 0, true, .val 0, true⟩ = true :=
  ⟨rfl, rfl⟩

/-- C6: a reversed bound pair is *rejected*, not normalized.
`Interval(5, 2, lower_closed=False)` (so `closed` and `upper_closed`
keep their default `True`) hits `if upper_bound < lower_bound: raise
ValueError(...)` — contradicting the claim, the constructor's doctest
(`print Interval(5, 2, lower_closed=False)` → `[2..5)`) and
`test_normalized_interval`, which both expect the silent swap. -/
theorem c6_reversed_bounds_rejected :
    Interval.init (.val 5) (.val 2) true false true
      = .error (.valueError "Upper bound cannot be greater than lower bound.") := by
  rfl

/-- C8: the sentinel order.  The equalities and strict comparisons
against domain values behave as the claim states, but the final
conjunct fails: `Smallest.__lt__` returns `True` unconditionally and
`Largest.__gt__` returns `True` unconditionally, so `-Inf < -Inf` and
`Inf > Inf` are both `True` — a sentinel *does* compare strictly less
(resp. greater) than itself, contradicting the claim and the classes'
own doctests (`negInf < negInf` → `False`, `infinity > infinity` →
`False`). -/
theorem c8_sentinel_comparisons :
    eeq .neginf .neginf = true ∧ eeq .posinf .posinf = true ∧
    (∀ v : Int, elt .neginf (.val v) = true) ∧
    (∀ v : Int, elt (.val v) .posinf = true) ∧
    (∀ v : Int, eeq .neginf (.val v) = false ∧ eeq (.val v) .neginf = false ∧
      eeq .posinf (.val v) = false ∧ eeq (.val v) .posinf = false) ∧
    elt .neginf .neginf = true ∧ egt .posinf .posinf = true :=
  ⟨rfl, rfl, fun _ => rfl, fun _ => rfl,
    fun _ => ⟨rfl, rfl, rfl, rfl⟩, rfl, rfl⟩

/-- C4: `join` is *not* total on overlapping pairs.  Take
`r8 = Interval.greater_than(-100)` from `join`'s own doctest, i.e.
`(-100...)` (buildable as `Interval(-100, Inf, closed=False,
lower_closed=False, upper_closed=False)`).  `r8.overlaps(r8)` holds,
yet `r8.join(r8)` re-enters the constructor with `closed` at its
default `True`, which closes the `Inf` end and raises
`ValueError("Unbound ends cannot be included in an interval.")` —
the doctest expects `print r8.join(r8)` → `(-100...)`. -/
theorem c4_join_fails_on_overlapping :
    Interval.init (.val (-100)) .posinf false false false
        = .ok ⟨.val (-100), false, .posinf, false⟩ ∧
    Interval.overlaps ⟨.val (-100), false, .posinf, false⟩
        ⟨.val (-100), false, .posinf, false⟩ = some true ∧
    Interval.join ⟨.val (-100), false, .posinf, false⟩
        ⟨.val (-100), false, .posinf, false⟩
      = .error (.valueError "Unbound ends cannot be included in an interval.") :=
  ⟨rfl, rfl, rfl⟩

/-- C2: the canonical-form invariant is violated by a successful
insertion sequence.  Build the set from the three constructor-produced
intervals `[1..2)`, `[4..5]`, `(2..4)` (in that order; each
construction and insertion succeeds).  Inserting `(2..4)` joins it with
`[4..5]`, and `join`'s constructor call (with `closed` left `True`)
closes both ends of the merged interval, storing `[2..5]` — which is
*adjacent* to the kept `[1..2)`.  The stored sequence
`[1..2), [2..5]` is not pairwise non-adjacent. -/
theorem c2_canonical_invariant_violated :
    Interval.init (.val 1) (.val 2) false true false
        = .ok ⟨.val 1, true, .val 2, false⟩ ∧
    Interval.init (.val 4) (.val 5) true true true
        = .ok ⟨.val 4, true, .val 5, true⟩ ∧
    Interval.init (.val 2) (.val 4) false false false
        = .ok ⟨.val 2, false, .val 4, false⟩ ∧
    BaseIntervalSet.ofItems
        [.iv ⟨.val 1, true, .val 2, false⟩, .iv ⟨.val 4, true, .val 5, true⟩,
          .iv ⟨.val 2, false, .val 4, false⟩]
        = .ok [⟨.val 1, true, .val 2, false⟩, ⟨.val 2, true, .val 5, true⟩] ∧
    Interval.adjacent_to ⟨.val 1, true, .val 2, false⟩ ⟨.val 2, true, .val 5, true⟩
        = some true :=
  ⟨rfl, rfl, rfl, rfl, rfl⟩

/-- C5: `s | s == s` fails.  For `s = IntervalSet([Interval(1, 3,
closed=False, lower_closed=False, upper_closed=False)])` (the single
open interval `(1..3)`), re-adding the interval to a copy of `s` joins
it with itself, and `join`'s constructor call (with `closed` left
`True`) closes both ends: `s | s` stores `[1..3]`, and the mutual-subset
equality with `s`'s stored `(1..3)` is false. -/
theorem c5_union_idempotence_fails :
    Interval.init (.val 1) (.val 3) false false false
        = .ok ⟨.val 1, false, .val 3, false⟩ ∧
    BaseIntervalSet.ofItems [.iv ⟨.val 1, false, .val 3, false⟩]
        = .ok [⟨.val 1, false, .val 3, false⟩] ∧
    BaseIntervalSet.orOp [⟨.val 1, false, .val 3, false⟩]
        [⟨.val 1, false, .val 3, false⟩]
        = .ok [⟨.val 1, true, .val 3, true⟩] ∧
    BaseIntervalSet.eq [⟨.val 1, true, .val 3, true⟩] [⟨.val 1, false, .val 3, false⟩]
        = false :=
  ⟨rfl, rfl, rfl, rfl⟩

/-- C7 as stated is false: with equal lower bounds, equal lower
closures and equal upper bounds, `comes_before` puts the interval with
`upper_closed=False` *before* — not after — the closed one.  At
`[0..5)` vs `[0..5]` the open-upper interval comes before the
closed-upper one, and the closed-upper one does not come before it. -/
theorem c7_counterexample :
    Interval.comes_before ⟨.val 0, true, .val 5, false⟩ ⟨.val 0, true, .val 5, true⟩
        = true ∧
    Interval.comes_before ⟨.val 0, true, .val 5, true⟩ ⟨.val 0, true, .val 5, false⟩
        = false := by
  decide

/-- C7 amended: for two intervals with equal lower bounds, equal lower
closures and equal upper bounds whose upper closures differ,
`comes_before` orders the interval with `upper_closed = false` *before*
the one with `upper_closed = true` (the closed-upper side is the
`Valid` interval `b`, which rules out the unreachable `Inf`-closed
fields); when all four fields are equal, neither comes before the
other. -/
theorem c7_amended (a b : Interval) (hv : Valid b)
    (hl : a.lower_bound = b.lower_bound) (hlc : a.lower_closed = b.lower_closed)
    (hu : a.upper_bound = b.upper_bound)
    (hauc : a.upper_closed = false) (hbuc : b.upper_closed = true) :
    Interval.comes_before a b = true ∧
      ∀ c : Interval, Interval.comes_before c c = false := by
  refine ⟨?_, comes_before_self⟩
  obtain ⟨al, alc, au, auc⟩ := a
  obtain ⟨bl, blc, bu, buc⟩ := b
  simp only at hl hlc hu hauc hbuc
  subst hl hlc hu hauc hbuc
  obtain ⟨hv1, hv2, hv3⟩ := hv
  simp only at hv1 hv2 hv3
  cases al <;> cases au <;>
    simp_all [Interval.comes_before, Interval.ieq, eeq, elt, egt]

/-- `Interval.__init__` never raises `KeyError`. -/
theorem init_no_key {l u : EVal} {c lc uc : Bool} {e : PyErr}
    (h : Interval.init l u c lc uc = .error e) : e.isKey = false := by
  unfold Interval.init at h
  split at h
  · cases h; rfl
  · dsimp only at h
    split at h
    · cases h; rfl
    · cases h

/-- `Interval.join` never raises `KeyError`. -/
theorem join_no_key {a b : Interval} {e : PyErr}
    (h : Interval.join a b = .error e) : e.isKey = false := by
  unfold Interval.join at h
  split at h
  · cases h; rfl
  · split at h
    · cases h; rfl
    · split at h
      · exact init_no_key h
      · cases h; rfl

/-- The merge scan of `_add` never raises `KeyError`. -/
theorem addScan_no_key {e : PyErr} :
    ∀ (st : List Interval) (r : Interval),
      BaseIntervalSet.addScan r st = .error e → e.isKey = false := by
  intro st
  induction st with
  | nil => intro r h; cases h
  | cons i rest ih =>
    intro r h
    unfold BaseIntervalSet.addScan at h
    split at h
    · cases h; rfl
    · split at h
      · cases h; rfl
      · split at h
        · split at h
          · next heq => cases h; exact join_no_key heq
          · exact ih _ h
        · split at h
          · next heq => cases h; exact ih _ heq
          · cases h

/-- `BaseIntervalSet._add` never raises `KeyError`. -/
theorem _add_no_key {st : List Interval} {obj : Item} {e : PyErr}
    (h : BaseIntervalSet._add st obj = .error e) : e.isKey = false := by
  unfold BaseIntervalSet._add at h
  split at h
  · rename_i heq
    cases h
    cases obj <;> simp [equal_to_val] at heq
  · split at h
    · split at h
      · rename_i heq
        cases h
        exact addScan_no_key _ _ heq
      · cases h
    · cases h

/-- An `Except`-valued left fold whose steps never raise `KeyError`
never raises `KeyError`. -/
theorem foldlM_no_key {α β : Type} (f : β → α → Except PyErr β)
    (hf : ∀ b a e, f b a = .error e → e.isKey = false) :
    ∀ (l : List α) (b : β) (e : PyErr),
      l.foldlM f b = .error e → e.isKey = false := by
  intro l
  induction l with
  | nil =>
    intro b e h
    have h2 : (Except.ok b : Except PyErr β) = Except.error e := h
    cases h2
  | cons x xs ih =>
    intro b e h
    rw [List.foldlM_cons] at h
    cases hf0 : f b x with
    | error e1 =>
      rw [hf0] at h
      have h2 : (Except.error e1 : Except PyErr β) = Except.error e := h
      cases h2
      exact hf b x _ hf0
    | ok b' =>
      rw [hf0] at h
      have h2 : xs.foldlM f b' = Except.error e := h
      exact ih b' e h2

/-- Rebuilding a sequence of intervals into a set never raises
`KeyError`. -/
theorem addIvals_no_key {st : List Interval} {l : List Interval} {e : PyErr}
    (h : BaseIntervalSet.addIvals st l = .error e) : e.isKey = false :=
  foldlM_no_key _ (fun _ _ _ hadd => _add_no_key hadd) l st e h

/-- `BaseIntervalSet.__init__` never raises `KeyError`. -/
theorem ofItems_no_key {items : List Item} {e : PyErr}
    (h : BaseIntervalSet.ofItems items = .error e) : e.isKey = false :=
  foldlM_no_key _ (fun _ _ _ hadd => _add_no_key hadd) items [] e h

/-- The inner loop of `__sub__` never raises `KeyError`. -/
theorem subScan_no_key {e : PyErr} :
    ∀ (is : List Interval) (j : Interval) (temp : List Interval),
      BaseIntervalSet.subScan j temp is = .error e → e.isKey = false := by
  intro is
  induction is with
  | nil => intro j temp h; cases h
  | cons i rest ih =>
    intro j temp h
    unfold BaseIntervalSet.subScan at h
    split at h
    · cases h; rfl
    · split at h
      · split at h
        · exact ih j temp h
        · split at h
          · split at h
            · next heq => cases h; exact init_no_key heq
            · split at h
              · next heq => cases h; exact _add_no_key heq
              · split at h
                · next heq => cases h; exact init_no_key heq
                · split at h
                  · next heq => cases h; exact _add_no_key heq
                  · exact ih j _ h
          · split at h
            · split at h
              · next heq => cases h; exact init_no_key heq
              · split at h
                · next heq => cases h; exact _add_no_key heq
                · exact ih j _ h
            · split at h
              · next heq => cases h; exact init_no_key heq
              · split at h
                · next heq => cases h; exact _add_no_key heq
                · exact ih j _ h
      · split at h
        · next heq => cases h; exact _add_no_key heq
        · exact ih j _ h

/-- `BaseIntervalSet.__sub__` never raises `KeyError`. -/
theorem subOp_no_key {a b : List Interval} {e : PyErr}
    (h : BaseIntervalSet.subOp a b = .error e) : e.isKey = false := by
  unfold BaseIntervalSet.subOp at h
  cases h1 : BaseIntervalSet.addIvals [] a with
  | error e1 =>
    rw [h1] at h
    have h2 : (Except.error e1 : Except PyErr (List Interval)) = Except.error e := h
    cases h2
    exact addIvals_no_key h1
  | ok res =>
    rw [h1] at h
    have h' : (List.foldlM (fun r j => BaseIntervalSet.subScan j [] r) res b >>=
        fun r => BaseIntervalSet.addIvals [] r) = Except.error e := h
    cases h2 : List.foldlM (fun r j => BaseIntervalSet.subScan j [] r) res b with
    | error e2 =>
      rw [h2] at h'
      have h3 : (Except.error e2 : Except PyErr (List Interval)) = Except.error e := h'
      cases h3
      exact foldlM_no_key _ (fun r j e' hs => subScan_no_key r j [] hs) b res e h2
    | ok res2 =>
      rw [h2] at h'
      have h3 : BaseIntervalSet.addIvals [] res2 = Except.error e := h'
      exact addIvals_no_key h3

/-- `IntervalSet.discard` never raises `KeyError`. -/
theorem discard_no_key {st : List Interval} {obj : Item} {e : PyErr}
    (h : BaseIntervalSet.discard st obj = .error e) : e.isKey = false := by
  unfold BaseIntervalSet.discard at h
  cases h1 : BaseIntervalSet.ofItems [obj] with
  | error e1 =>
    rw [h1] at h
    have h2 : (Except.error e1 : Except PyErr (List Interval)) = Except.error e := h
    cases h2
    exact ofItems_no_key h1
  | ok other =>
    rw [h1] at h
    have h2 : BaseIntervalSet.subOp st other = Except.error e := h
    exact subOp_no_key h2

/-- C9: `IntervalSet.remove(obj)` raises `KeyError` exactly when
`obj in self` fails — i.e. when no stored interval fully contains the
requested value/interval, the spec's notion of coverage — and in that
case the stored sequence is left unchanged.  (When `obj` is covered,
`discard` runs; whatever it does — succeed or raise one of the
`ValueError`/`ArithmeticError`/recursion failures — it never raises
`KeyError`, by `discard_no_key`.) -/
theorem c9_remove_keyerror_iff (st : List Interval) (obj : Item) :
    ((BaseIntervalSet.remove st obj).1 = .error .keyError ↔
      BaseIntervalSet.contains st obj = false) ∧
    ((BaseIntervalSet.remove st obj).1 = .error .keyError →
      (BaseIntervalSet.remove st obj).2 = st) := by
  unfold BaseIntervalSet.remove
  by_cases hc : BaseIntervalSet.contains st obj = true
  · rw [if_pos hc]
    cases hd : BaseIntervalSet.discard st obj with
    | error e =>
      refine ⟨⟨fun h => ?_, fun h => ?_⟩, fun _ => rfl⟩
      · have he : e = .keyError := by
          have h2 : Except.error (ε := PyErr) (α := Unit) e = .error .keyError := h
          cases h2; rfl
        subst he
        have := discard_no_key hd
        simp [PyErr.isKey] at this
      · rw [h] at hc; cases hc
    | ok st' =>
      refine ⟨⟨fun h => ?_, fun h => ?_⟩, fun h => ?_⟩
      · have h2 : (Except.ok () : Except PyErr Unit) = .error .keyError := h
        cases h2
      · rw [h] at hc; cases hc
      · have h2 : (Except.ok () : Except PyErr Unit) = .error .keyError := h
        cases h2
  · rw [Bool.not_eq_true] at hc
    rw [if_neg (by rw [hc]; exact Bool.false_ne_true)]
    exact ⟨⟨fun _ => hc, fun _ => rfl⟩, fun _ => rfl⟩

/-- Writing cell `r` leaves every other cell unchanged. -/
theorem sread_swrite_ne (σ : Store) (r i : Nat) (v : List Interval) (h : i ≠ r) :
    sread (swrite σ r v) i = sread σ i := by
  unfold sread swrite
  rw [List.getD_eq_getElem?_getD, List.getD_eq_getElem?_getD,
    List.getElem?_set_ne (Ne.symm h)]

/-- Writing a cell preserves the store's size. -/
theorem swrite_length (σ : Store) (r : Nat) (v : List Interval) :
    (swrite σ r v).length = σ.length := List.length_set σ r v

/-- Allocation leaves every existing cell unchanged. -/
theorem sread_salloc_lt (σ : Store) (v : List Interval) (i : Nat) (h : i < σ.length) :
    sread (salloc σ v).1 i = sread σ i := by
  unfold sread salloc
  rw [List.getD_eq_getElem?_getD, List.getD_eq_getElem?_getD,
    List.getElem?_append_left h]

/-- Allocation grows the store by one cell. -/
theorem salloc_length (σ : Store) (v : List Interval) :
    (salloc σ v).1.length = σ.length + 1 := by
  unfold salloc; simp

/-- A successful `add` call writes only the cell it was invoked on. -/
theorem addRef_frame {σ σ' : Store} {r : Nat} {obj : Item}
    (h : BaseIntervalSet.addRef σ r obj = .ok σ') :
    σ'.length = σ.length ∧ ∀ i, i ≠ r → sread σ' i = sread σ i := by
  unfold BaseIntervalSet.addRef at h
  split at h
  · cases h
  · cases h
    exact ⟨swrite_length σ r _, fun i hi => sread_swrite_ne σ r i _ hi⟩

/-- A successful loop of `add` calls writes only the cell it targets. -/
theorem addAllRef_frame {r : Nat} :
    ∀ (items : List Item) (σ σ' : Store),
      BaseIntervalSet.addAllRef σ r items = .ok σ' →
      σ'.length = σ.length ∧ ∀ i, i ≠ r → sread σ' i = sread σ i := by
  intro items
  induction items with
  | nil =>
    intro σ σ' h
    cases h
    exact ⟨rfl, fun _ _ => rfl⟩
  | cons it rest ih =>
    intro σ σ' h
    unfold BaseIntervalSet.addAllRef at h
    split at h
    · cases h
    · rename_i σ1 heq
      obtain ⟨hl1, hr1⟩ := addRef_frame heq
      obtain ⟨hl2, hr2⟩ := ih σ1 σ' h
      exact ⟨hl2.trans hl1, fun i hi => (hr2 i hi).trans (hr1 i hi)⟩

/-- A successful `IntervalSet(items)` construction returns the next
free reference, grows the store by its one new cell, and leaves every
existing cell unchanged. -/
theorem newSet_frame {σ σ' : Store} {items : List Item} {ref : Nat}
    (h : BaseIntervalSet.newSet σ items = .ok (σ', ref)) :
    ref = σ.length ∧ σ'.length = σ.length + 1 ∧
      ∀ i, i < σ.length → sread σ' i = sread σ i := by
  unfold BaseIntervalSet.newSet at h
  split at h
  · cases h
  · rename_i σ1 heq
    obtain ⟨hl, hr⟩ := addAllRef_frame items (salloc σ []).1 σ1 heq
    cases h
    refine ⟨rfl, by rw [hl, salloc_length], ?_⟩
    intro i hi
    have hi' : i ≠ (salloc σ []).2 := by
      show i ≠ σ.length
      omega
    rw [hr i hi', sread_salloc_lt σ [] i hi]

/-- C10 frame lemma for `__or__`: every cell that existed before the
call reads the same after it. -/
theorem orRef_frame {σ σ' : Store} {a b ref : Nat}
    (h : BaseIntervalSet.orRef σ a b = .ok (σ', ref)) :
    σ.length ≤ σ'.length ∧ ∀ i, i < σ.length → sread σ' i = sread σ i := by
  unfold BaseIntervalSet.orRef at h
  split at h
  · cases h
  · rename_i σ1 u heq1
    split at h
    · cases h
    · rename_i σ2 heq2
      obtain ⟨hu, hl1, hr1⟩ := newSet_frame heq1
      obtain ⟨hl2, hr2⟩ := addAllRef_frame _ _ _ heq2
      obtain ⟨-, hl3, hr3⟩ := newSet_frame h
      constructor
      · omega
      · intro i hi
        have hiu : i ≠ u := by omega
        have hi2 : i < σ2.length := by omega
        rw [hr3 i hi2, hr2 i hiu, hr1 i hi]

/-- A successful `(i, j)` pair step of `__and__` writes only the result
cell. -/
theorem andPairRef_frame {σ σ' : Store} {res : Nat} {i j : Interval}
    (h : BaseIntervalSet.andPairRef σ res i j = .ok σ') :
    σ'.length = σ.length ∧ ∀ k, k ≠ res → sread σ' k = sread σ k := by
  unfold BaseIntervalSet.andPairRef at h
  split at h
  · cases h
  · split at h
    · split at h
      · exact addRef_frame h
      · split at h
        · exact addRef_frame h
        · split at h
          · split at h
            · cases h
            · exact addRef_frame h
          · split at h
            · cases h
            · exact addRef_frame h
    · cases h
      exact ⟨rfl, fun _ _ => rfl⟩

/-- The inner loop of `__and__` writes only the result cell. -/
theorem andInnerRef_frame {res : Nat} {j : Interval} :
    ∀ (is : List Interval) (σ σ' : Store),
      BaseIntervalSet.andInnerRef σ res j is = .ok σ' →
      σ'.length = σ.length ∧ ∀ k, k ≠ res → sread σ' k = sread σ k := by
  intro is
  induction is with
  | nil =>
    intro σ σ' h
    cases h
    exact ⟨rfl, fun _ _ => rfl⟩
  | cons i rest ih =>
    intro σ σ' h
    unfold BaseIntervalSet.andInnerRef at h
    split at h
    · cases h
    · rename_i σ1 heq
      obtain ⟨hl1, hr1⟩ := andPairRef_frame heq
      obtain ⟨hl2, hr2⟩ := ih σ1 σ' h
      exact ⟨hl2.trans hl1, fun k hk => (hr2 k hk).trans (hr1 k hk)⟩

/-- The outer loop of `__and__` writes only the result cell. -/
theorem andOuterRef_frame {res : Nat} {selfl : List Interval} :
    ∀ (js : List Interval) (σ σ' : Store),
      BaseIntervalSet.andOuterRef σ res selfl js = .ok σ' →
      σ'.length = σ.length ∧ ∀ k, k ≠ res → sread σ' k = sread σ k := by
  intro js
  induction js with
  | nil =>
    intro σ σ' h
    cases h
    exact ⟨rfl, fun _ _ => rfl⟩
  | cons j rest ih =>
    intro σ σ' h
    unfold BaseIntervalSet.andOuterRef at h
    split at h
    · cases h
    · rename_i σ1 heq
      obtain ⟨hl1, hr1⟩ := andInnerRef_frame selfl σ σ1 heq
      obtain ⟨hl2, hr2⟩ := ih σ1 σ' h
      exact ⟨hl2.trans hl1, fun k hk => (hr2 k hk).trans (hr1 k hk)⟩

/-- C10 frame lemma for `__and__`. -/
theorem andRef_frame {σ σ' : Store} {a b ref : Nat}
    (h : BaseIntervalSet.andRef σ a b = .ok (σ', ref)) :
    σ.length ≤ σ'.length ∧ ∀ i, i < σ.length → sread σ' i = sread σ i := by
  unfold BaseIntervalSet.andRef at h
  split at h
  · cases h
  · rename_i σ1 heq
    obtain ⟨hl1, hr1⟩ := andOuterRef_frame _ _ _ heq
    obtain ⟨-, hl2, hr2⟩ := newSet_frame h
    have hgrow : σ1.length = σ.length + 1 := by
      rw [hl1, salloc_length]
    constructor
    · omega
    · intro i hi
      have hires : i ≠ (salloc σ []).2 := by
        show i ≠ σ.length
        omega
      have hi1 : i < σ1.length := by omega
      rw [hr2 i hi1, hr1 i hires, sread_salloc_lt σ [] i hi]

/-- The inner loop of `__sub__` writes only the fresh `temp` cell. -/
theorem subScanRef_frame {tempr : Nat} {j : Interval} :
    ∀ (is : List Interval) (σ σ' : Store),
      BaseIntervalSet.subScanRef σ tempr j is = .ok σ' →
      σ'.length = σ.length ∧ ∀ i, i ≠ tempr → sread σ' i = sread σ i := by
  intro is
  induction is with
  | nil =>
    intro σ σ' h
    cases h
    exact ⟨rfl, fun _ _ => rfl⟩
  | cons i rest ih =>
    intro σ σ' h
    unfold BaseIntervalSet.subScanRef at h
    split at h
    · cases h
    · split at h
      · split at h
        · exact ih σ σ' h
        · split at h
          · split at h
            · cases h
            · split at h
              · cases h
              · rename_i σ1 heq1
                split at h
                · cases h
                · split at h
                  · cases h
                  · rename_i σ2 heq2
                    obtain ⟨hl1, hr1⟩ := addRef_frame heq1
                    obtain ⟨hl2, hr2⟩ := addRef_frame heq2
                    obtain ⟨hl3, hr3⟩ := ih σ2 σ' h
                    exact ⟨(hl3.trans hl2).trans hl1,
                      fun k hk => ((hr3 k hk).trans (hr2 k hk)).trans (hr1 k hk)⟩
          · split at h
            · split at h
              · cases h
              · split at h
                · cases h
                · rename_i σ1 heq1
                  obtain ⟨hl1, hr1⟩ := addRef_frame heq1
                  obtain ⟨hl2, hr2⟩ := ih σ1 σ' h
                  exact ⟨hl2.trans hl1, fun k hk => (hr2 k hk).trans (hr1 k hk)⟩
            · split at h
              · cases h
              · split at h
                · cases h
                · rename_i σ1 heq1
                  obtain ⟨hl1, hr1⟩ := addRef_frame heq1
                  obtain ⟨hl2, hr2⟩ := ih σ1 σ' h
                  exact ⟨hl2.trans hl1, fun k hk => (hr2 k hk).trans (hr1 k hk)⟩
      · split at h
        · cases h
        · rename_i σ1 heq1
          obtain ⟨hl1, hr1⟩ := addRef_frame heq1
          obtain ⟨hl2, hr2⟩ := ih σ1 σ' h
          exact ⟨hl2.trans hl1, fun k hk => (hr2 k hk).trans (hr1 k hk)⟩

/-- The `for j in other.intervals` loop of `__sub__` allocates and
writes only cells at or above the current store size: every cell below
`n ≤ σ.length` is unchanged and the store never shrinks. -/
theorem subLoopRef_frame {n : Nat} :
    ∀ (js : List Interval) (σ : Store) (resr : Nat) (σ' : Store) (r' : Nat),
      n ≤ σ.length → BaseIntervalSet.subLoopRef σ resr js = .ok (σ', r') →
      n ≤ σ'.length ∧ ∀ i, i < n → sread σ' i = sread σ i := by
  intro js
  induction js with
  | nil =>
    intro σ resr σ' r' hn h
    cases h
    exact ⟨hn, fun _ _ => rfl⟩
  | cons j rest ih =>
    intro σ resr σ' r' hn h
    unfold BaseIntervalSet.subLoopRef at h
    split at h
    · cases h
    · rename_i σ1 heq
      obtain ⟨hl1, hr1⟩ := subScanRef_frame (sread σ resr) (salloc σ []).1 σ1 heq
      have hgrow : σ1.length = σ.length + 1 := by
        rw [hl1, salloc_length]
      obtain ⟨hl2, hr2⟩ := ih σ1 (salloc σ []).2 σ' r' (by omega) h
      refine ⟨hl2, ?_⟩
      intro i hi
      have hit : i ≠ (salloc σ []).2 := by
        show i ≠ σ.length
        omega
      rw [hr2 i hi, hr1 i hit, sread_salloc_lt σ [] i (by omega)]

/-- C10 frame lemma for `__sub__`. -/
theorem subRef_frame {σ σ' : Store} {a b ref : Nat}
    (h : BaseIntervalSet.subRef σ a b = .ok (σ', ref)) :
    σ.length ≤ σ'.length ∧ ∀ i, i < σ.length → sread σ' i = sread σ i := by
  unfold BaseIntervalSet.subRef at h
  split at h
  · cases h
  · rename_i σ1 resr heq1
    split at h
    · cases h
    · rename_i σ2 resr2 heq2
      obtain ⟨-, hl1, hr1⟩ := newSet_frame heq1
      obtain ⟨hl2, hr2⟩ := subLoopRef_frame (n := σ.length) _ σ1 resr σ2 resr2
        (by omega) heq2
      obtain ⟨-, hl3, hr3⟩ := newSet_frame h
      constructor
      · omega
      · intro i hi
        have hi2 : i < σ2.length := by omega
        rw [hr3 i hi2, hr2 i hi, hr1 i hi]

/-- C10 frame lemma for `__xor__`. -/
theorem xorRef_frame {σ σ' : Store} {a b ref : Nat}
    (h : BaseIntervalSet.xorRef σ a b = .ok (σ', ref)) :
    σ.length ≤ σ'.length ∧ ∀ i, i < σ.length → sread σ' i = sread σ i := by
  unfold BaseIntervalSet.xorRef at h
  split at h
  · cases h
  · rename_i σ1 u heq1
    split at h
    · cases h
    · rename_i σ2 n heq2
      obtain ⟨hl1, hr1⟩ := orRef_frame heq1
      obtain ⟨hl2, hr2⟩ := andRef_frame heq2
      obtain ⟨hl3, hr3⟩ := subRef_frame h
      constructor
      · omega
      · intro i hi
        have hi1 : i < σ1.length := by omega
        have hi2 : i < σ2.length := by omega
        rw [hr3 i hi2, hr2 i hi1, hr1 i hi]

/-- C10: the four binary set operators never mutate their operands.
In the store-passing rendering (where every Python statement that
assigns an object's `intervals` attribute is a cell write), a
successful `a | b`, `a & b`, `a - b` or `a ^ b` leaves the operand
cells — indeed every pre-existing cell — with exactly the stored
interval sequences they held before the call. -/
theorem c10_operators_preserve_operands (σ : Store) (a b : Nat)
    (ha : a < σ.length) (hb : b < σ.length) :
    (∀ σ' r, BaseIntervalSet.orRef σ a b = .ok (σ', r) →
        sread σ' a = sread σ a ∧ sread σ' b = sread σ b) ∧
    (∀ σ' r, BaseIntervalSet.andRef σ a b = .ok (σ', r) →
        sread σ' a = sread σ a ∧ sread σ' b = sread σ b) ∧
    (∀ σ' r, BaseIntervalSet.subRef σ a b = .ok (σ', r) →
        sread σ' a = sread σ a ∧ sread σ' b = sread σ b) ∧
    (∀ σ' r, BaseIntervalSet.xorRef σ a b = .ok (σ', r) →
        sread σ' a = sread σ a ∧ sread σ' b = sread σ b) :=
  ⟨fun _ _ h => ⟨(orRef_frame h).2 a ha, (orRef_frame h).2 b hb⟩,
   fun _ _ h => ⟨(andRef_frame h).2 a ha, (andRef_frame h).2 b hb⟩,
   fun _ _ h => ⟨(subRef_frame h).2 a ha, (subRef_frame h).2 b hb⟩,
   fun _ _ h => ⟨(xorRef_frame h).2 a ha, (xorRef_frame h).2 b hb⟩⟩

/-- Witness for `c10_operators_preserve_operands` at the two-cell
store holding the sets `{[1..1]}` and `{[2..2]}`: their union is
computed into fresh cells (result reference `3`) and both operand cells
read unchanged. -/
theorem c10_operators_witness :
    ((0 : Nat) <
        ([[⟨.val 1, true, .val 1, true⟩], [⟨.val 2, true, .val 2, true⟩]] :
          Store).length ∧
      (1 : Nat) <
        ([[⟨.val 1, true, .val 1, true⟩], [⟨.val 2, true, .val 2, true⟩]] :
          Store).length) ∧
    (sread [[⟨.val 1, true, .val 1, true⟩], [⟨.val 2, true, .val 2, true⟩],
        [⟨.val 1, true, .val 1, true⟩, ⟨.val 2, true, .val 2, true⟩],
        [⟨.val 1, true, .val 1, true⟩, ⟨.val 2, true, .val 2, true⟩]] 0
      = sread [[⟨.val 1, true, .val 1, true⟩], [⟨.val 2, true, .val 2, true⟩]] 0 ∧
     sread [[⟨.val 1, true, .val 1, true⟩], [⟨.val 2, true, .val 2, true⟩],
        [⟨.val 1, true, .val 1, true⟩, ⟨.val 2, true, .val 2, true⟩],
        [⟨.val 1, true, .val 1, true⟩, ⟨.val 2, true, .val 2, true⟩]] 1
      = sread [[⟨.val 1, true, .val 1, true⟩], [⟨.val 2, true, .val 2, true⟩]] 1) :=
  ⟨⟨by decide, by decide⟩,
    (c10_operators_preserve_operands
        [[⟨.val 1, true, .val 1, true⟩], [⟨.val 2, true, .val 2, true⟩]] 0 1
        (by decide) (by decide)).1
      [[⟨.val 1, true, .val 1, true⟩], [⟨.val 2, true, .val 2, true⟩],
        [⟨.val 1, true, .val 1, true⟩, ⟨.val 2, true, .val 2, true⟩],
        [⟨.val 1, true, .val 1, true⟩, ⟨.val 2, true, .val 2, true⟩]] 3 rfl⟩

/-- Witness for `c9_remove_keyerror_iff` at the empty set and the
discrete value `0`. -/
theorem c9_remove_witness :
    ((BaseIntervalSet.remove [] (.scalar 0)).1 = .error .keyError ↔
      BaseIntervalSet.contains [] (.scalar 0) = false) ∧
    ((BaseIntervalSet.remove [] (.scalar 0)).1 = .error .keyError →
      (BaseIntervalSet.remove [] (.scalar 0)).2 = []) :=
  c9_remove_keyerror_iff [] (.scalar 0)

/-- Witness for `c7_amended` at `a = [0..5)`, `b = [0..5]`. -/
theorem c7_amended_witness :
    Valid ⟨.val 0, true, .val 5, true⟩ ∧
    (Interval.comes_before ⟨.val 0, true, .val 5, false⟩ ⟨.val 0, true, .val 5, true⟩
        = true ∧
      ∀ c : Interval, Interval.comes_before c c = false) :=
  ⟨by decide,
    c7_amended ⟨.val 0, true, .val 5, false⟩ ⟨.val 0, true, .val 5, true⟩
      (by decide) rfl rfl rfl rfl rfl⟩

end Intervals
